import Mathlib

/-!
Verification of the RESCUEBOT.AI simulation core.

This file gives a shallow embedding, in Lean 4, of the core logic of the
repository (grid world model, A* path planner, control executor, perception,
telemetry, decision orchestration, scenario initialization) and proves or
refutes the frozen specification claims about it.

Modelling conventions:
- JavaScript numbers are modelled as exact rationals; counters and integer
  path costs as naturals; grid indices as integers (neighbour arithmetic in
  the planner can go negative before the bounds check).
- A grid (`Cell[][]` indexed as grid[y][x] in the source) is modelled as a
  total function from coordinates to cells.  The per-cell x, y and
  difficulty fields of the source Cell record are positional or derived
  from the type and are elided.
- The random stream (Math.random) is modelled by explicit stream
  parameters, universally quantified in theorems.
- While-loops are modelled by fuel-indexed structural recursion; the fuel
  is chosen strictly larger than a provable bound on the number of
  iterations, so the out-of-fuel branch is unreachable (for the planner
  this is established by the closed-set invariant: each iteration adds a
  fresh coordinate to the closed set, which lives inside a finite set).
-/

namespace RescueBot

/-! ## Definitions: the shallow embedding of the simulation core -/

/-- Cell types, from src CellType enum. -/
inductive CellType where
  | EMPTY
  | WALL
  | DEBRIS
  | FIRE
  | VICTIM
  | START
deriving DecidableEq, Repr

/-- Integer grid coordinates, from the Coordinates interface. -/
structure Coordinates where
  x : Int
  y : Int
deriving DecidableEq, Repr

/-- A grid cell: its type and fog-of-war revealed flag. -/
structure Cell where
  type : CellType
  revealed : Bool
deriving DecidableEq, Repr

/-- The world grid, modelled as a total function on coordinates. -/
def Grid := Coordinates → Cell

/-- GRID_SIZE constant (constants.ts). -/
def GRID_SIZE : Int := 15

/-- MAX_BATTERY constant (constants.ts). -/
def MAX_BATTERY : ℚ := 100

/-- CHARGING_RATE constant (constants.ts). -/
def CHARGING_RATE : ℚ := 10

/-- MOVEMENT_COST lookup table (constants.ts).  All six cell types are
present in the source table, so the defensive `|| 1` in callers is dead. -/
def MOVEMENT_COST : CellType → Nat
  | CellType.EMPTY => 1
  | CellType.START => 1
  | CellType.DEBRIS => 3
  | CellType.WALL => 999
  | CellType.FIRE => 5
  | CellType.VICTIM => 1

/-- ROI constants (constants.ts). -/
def COST_PER_STEP : ℚ := 0.5

/-- Dollar cost per consumed battery percent (constants.ts). -/
def COST_PER_BATTERY_PERCENT : ℚ := 5

/-- Dollar value per rescued victim (constants.ts). -/
def VALUE_PER_RESCUE : ℚ := 5000

/-- Dollar value per extinguished fire (constants.ts). -/
def VALUE_PER_HAZARD_CLEARED : ℚ := 1500

/-- Robot profile numeric fields (RobotConfig interface; the id, name and
description strings play no role in the claims). -/
structure RobotConfig where
  speedMultiplier : ℚ
  batteryDrainRate : ℚ
  maxHealth : ℚ
deriving DecidableEq, Repr

/-- Robot operating states (RobotStatus enum). -/
inductive RobotStatus where
  | IDLE
  | SCANNING
  | PLANNING
  | MOVING
  | ACTING
  | CRITICAL
  | EMERGENCY_STOP
  | RECHARGING
deriving DecidableEq, Repr

/-- Robot state (RobotState interface; the log stream is elided, being an
append-only list of strings not involved in any claim). -/
structure RobotState where
  pos : Coordinates
  battery : ℚ
  health : ℚ
  status : RobotStatus
  victimsRescued : Nat
  firesExtinguished : Nat
  path : List Coordinates
  currentGoal : Option Coordinates
deriving DecidableEq, Repr

/-- Result record of executeControlStep. -/
structure ControlResult where
  success : Bool
  newBattery : ℚ
  message : Option String
deriving DecidableEq, Repr

/-- JavaScript Math.max on two rationals. -/
def jsMax (a b : ℚ) : ℚ := if a ≤ b then b else a

/-- JavaScript `cfg?.field || 1.0` on an optional config: undefined and 0
are falsy and fall back to 1.0. -/
def orOne (v : Option ℚ) : ℚ :=
  match v with
  | none => 1
  | some q => if q = 0 then 1 else q

/-- The energy drain computed by executeControlStep for a non-Wall target
cell (the local variable `drain` in the source). -/
def movementDrain (cellType : CellType) (speedMultiplier batteryDrainRate : ℚ) : ℚ :=
  0.5 * (MOVEMENT_COST cellType : ℚ) * speedMultiplier * batteryDrainRate

/-- executeControlStep (src/services/navigation.ts lines 94-118).  A Wall
target is a collision fault; otherwise battery drains by
0.5 * cost * speedMultiplier * batteryDrainRate, floored at 0. -/
def executeControlStep (currentPos nextPos : Coordinates) (currentBattery : ℚ)
    (cellType : CellType) (robotConfig : Option RobotConfig) : ControlResult :=
  if cellType = CellType.WALL then
    ⟨false, currentBattery, some "COLLISION DETECTED"⟩
  else
    let speedMultiplier := orOne (robotConfig.map RobotConfig.speedMultiplier)
    let batteryDrainRate := orOne (robotConfig.map RobotConfig.batteryDrainRate)
    let drain := movementDrain cellType speedMultiplier batteryDrainRate
    ⟨true, jsMax 0 (currentBattery - drain), none⟩

/-- Simulation metrics record (SimulationMetrics interface). -/
structure SimulationMetrics where
  stepsTaken : Nat
  batteryHistory : List (Nat × ℚ)
  explorationRate : List (Nat × Int)
  operationalCost : ℚ
  valueGenerated : ℚ
deriving DecidableEq, Repr

/-- JavaScript Math.round, half away from zero rounds up on rationals of
interest here (all nonnegative in the call sites). -/
def jsRound (q : ℚ) : Int := ⌊q + 0.5⌋

/-- updateMetrics (src/services/telemetry.ts lines 26-54).  Note that the
battery term of operationalCost is MAX_BATTERY minus the current battery
level, not a running total of consumed battery. -/
def updateMetrics (m : SimulationMetrics) (batteryLevel : ℚ)
    (exploredCount totalCells : Nat) (victimsRescued firesExtinguished : Nat) :
    SimulationMetrics :=
  let step := m.stepsTaken + 1
  let batteryUsed := MAX_BATTERY - batteryLevel
  let operationalCost := (step : ℚ) * COST_PER_STEP + batteryUsed * COST_PER_BATTERY_PERCENT
  let valueGenerated := (victimsRescued : ℚ) * VALUE_PER_RESCUE
      + (firesExtinguished : ℚ) * VALUE_PER_HAZARD_CLEARED
  { stepsTaken := step
    batteryHistory := m.batteryHistory ++ [(step, batteryLevel)]
    explorationRate := m.explorationRate ++ [(step, jsRound ((exploredCount : ℚ) / (totalCells : ℚ) * 100))]
    operationalCost := operationalCost
    valueGenerated := valueGenerated }

/-- The metrics state installed by initSimulation (src/App.tsx lines 134-140). -/
def initialMetrics : SimulationMetrics :=
  { stepsTaken := 0
    batteryHistory := [(0, 100)]
    explorationRate := [(0, 0)]
    operationalCost := 0
    valueGenerated := 0 }

/-- SENSOR_RADIUS constant of the perception layer. -/
def SENSOR_RADIUS : Int := 2

/-- One sensor reading: cell coordinates, type and Manhattan distance. -/
structure SensorReading where
  coordinates : Coordinates
  type : CellType
  distance : Nat
deriving DecidableEq, Repr

/-- Result record of scanEnvironment. -/
structure ScanResult where
  readings : List SensorReading
  newMapState : Grid

/-- The square sensor window offsets, dy outer loop and dx inner loop, each
ranging over -SENSOR_RADIUS..SENSOR_RADIUS, as pairs (dx, dy). -/
def sensorOffsets : List (Int × Int) :=
  ((List.range 5).map (fun i => (i : Int) - 2)).flatMap
    (fun dy => ((List.range 5).map (fun i => (i : Int) - 2)).map (fun dx => (dx, dy)))

/-- Bounds check 0 ≤ v < GRID_SIZE on both axes. -/
def inBoundsB (x y : Int) : Bool :=
  decide (0 ≤ x) && decide (x < GRID_SIZE) && decide (0 ≤ y) && decide (y < GRID_SIZE)

/-- The in-bounds cells visited by the sensor sweep around a robot position. -/
def scanWindow (robotPos : Coordinates) : List Coordinates :=
  (sensorOffsets.map (fun off => Coordinates.mk (robotPos.x + off.1) (robotPos.y + off.2))).filter
    (fun c => inBoundsB c.x c.y)

/-- The mapUpdated flag computed by scanEnvironment: true exactly when some
swept cell was not yet revealed. -/
def mapUpdated (truthGrid : Grid) (robotPos : Coordinates) : Bool :=
  (scanWindow robotPos).any (fun c => !(truthGrid c).revealed)

/-- scanEnvironment (perception layer).  Builds a fresh copy of the truth
grid with every in-window cell revealed, and returns that copy when any
cell became newly revealed, otherwise the unchanged input grid (the source
deep-copies the grid before mutating the copy; the input array is never
written). -/
def scanEnvironment (truthGrid : Grid) (robotPos : Coordinates) : ScanResult :=
  let readings := (scanWindow robotPos).map (fun c =>
    SensorReading.mk c (truthGrid c).type
      ((c.x - robotPos.x).natAbs + (c.y - robotPos.y).natAbs))
  let newMapState : Grid := fun c =>
    if c ∈ scanWindow robotPos then { truthGrid c with revealed := true } else truthGrid c
  ⟨readings, if mapUpdated truthGrid robotPos then newMapState else truthGrid⟩

/-- High-level actions of a decision (DecisionResponse action field). -/
inductive ActionType where
  | MOVE
  | RESCUE
  | EXTINGUISH
  | EXPLORE
  | RECHARGE
deriving DecidableEq, Repr

/-- Decision priorities. -/
inductive Priority where
  | HIGH
  | MEDIUM
  | LOW
deriving DecidableEq, Repr

/-- A decision returned by the oracle (DecisionResponse interface). -/
structure DecisionResponse where
  reasoning : String
  action : ActionType
  targetCoordinates : Option Coordinates
  priority : Priority
deriving DecidableEq, Repr

/-- One oracle attempt outcome, as classified by the source: a parsed
decision; an empty response payload (response.text falsy, thrown and then
caught as a non-rate-limit error, since its message carries no 429, quota
or RESOURCE_EXHAUSTED marker); a JSON parse failure (likewise caught as a
non-rate-limit error); or a thrown API error whose rate-limit
classification is the isRateLimit predicate of the source. -/
inductive OracleOutcome where
  | success (d : DecisionResponse)
  | emptyText
  | parseFail
  | apiError (isRateLimit : Bool)
deriving DecidableEq, Repr

/-- The rate-limit classification applied in the catch block. -/
def classifyRateLimit : OracleOutcome → Bool
  | OracleOutcome.apiError true => true
  | _ => false

/-- The deterministic fallback decision returned from the catch block. -/
def fallbackDecision : DecisionResponse :=
  ⟨"Communication fault or Rate Limit with AI Core. Initiating fallback exploration.",
    ActionType.EXPLORE, none, Priority.LOW⟩

/-- The fallback after the while loop (dead code in the source: the loop
always returns from inside). -/
def timeoutFallback : DecisionResponse :=
  ⟨"System Timeout. Fallback active.", ActionType.EXPLORE, none, Priority.LOW⟩

/-- Trace of one getDecisionFromGemini run: the decision returned, the
number of oracle attempts consumed, and the backoff waits (in ms) actually
performed between throttled attempts. -/
structure DecisionTrace where
  decision : DecisionResponse
  attemptsUsed : Nat
  waits : List Nat
deriving DecidableEq, Repr

/-- The retry loop of getDecisionFromGemini.  maxAttempts is 3; on a
rate-limited failure with attempts remaining it waits backoff ms and
doubles the backoff; any other failure (or exhausted attempts) returns the
deterministic fallback.  The remaining parameter is maxAttempts minus the
attempts already used, so the loop condition attempts < maxAttempts is
remaining > 0. -/
def geminiLoop (oracle : Nat → OracleOutcome) (attempts backoff : Nat) :
    Nat → DecisionTrace
  | 0 => ⟨timeoutFallback, attempts, []⟩
  | remaining + 1 =>
    match oracle attempts with
    | OracleOutcome.success d => ⟨d, attempts + 1, []⟩
    | o =>
      if classifyRateLimit o && decide (attempts + 1 < 3) then
        let t := geminiLoop oracle (attempts + 1) (backoff * 2) remaining
        ⟨t.decision, t.attemptsUsed, backoff :: t.waits⟩
      else
        ⟨fallbackDecision, attempts + 1, []⟩

/-- getDecisionFromGemini, modelled over an oracle giving the outcome of
each attempt: at most 3 attempts, initial backoff 2000 ms. -/
def getDecisionFromGemini (oracle : Nat → OracleOutcome) : DecisionTrace :=
  geminiLoop oracle 0 2000 3

/-- A* search node.  The parent pointer of the source is modelled as the
accumulated forward path from the start cell to this node (inclusive);
the source reconstructs exactly this list at the goal by walking parents
and reversing. -/
structure Node where
  x : Int
  y : Int
  g : Nat
  h : Nat
  f : Nat
  path : List Coordinates
deriving DecidableEq, Repr

/-- Coordinates of a search node. -/
def coordOf (n : Node) : Coordinates := ⟨n.x, n.y⟩

/-- The four neighbour offsets, in source order. -/
def offsets : List (Int × Int) := [(0, -1), (0, 1), (-1, 0), (1, 0)]

/-- Processing of one neighbour offset of the current node: bounds check,
closed-set check, traversability check (a cell blocks only if it is a Wall
and revealed), then the open-list check.  The source compares the new
g-cost against an already-queued node at the same coordinates and skips
when it is no improvement; but an improvement is also dropped, because the
neighbour node is only pushed when no queued node was found.  The open
list is threaded through the fold because the source pushes onto the list
it is iterating find over. -/
def pushNeighbor (grid : Grid) (target : Coordinates) (cur : Node)
    (closed : List Coordinates) (acc : List Node) (off : Int × Int) : List Node :=
  let nx := cur.x + off.1
  let ny := cur.y + off.2
  if ¬(inBoundsB nx ny = true) then acc
  else if (Coordinates.mk nx ny) ∈ closed then acc
  else
    let cell := grid ⟨nx, ny⟩
    if cell.type = CellType.WALL ∧ cell.revealed = true then acc
    else
      let gCost := cur.g + MOVEMENT_COST cell.type
      let hCost := (nx - target.x).natAbs + (ny - target.y).natAbs
      match acc.find? (fun n => n.x == nx && n.y == ny) with
      | some existingNode =>
        if existingNode.g ≤ gCost then acc else acc
      | none =>
        acc ++ [⟨nx, ny, gCost, hCost, gCost + hCost, cur.path ++ [⟨nx, ny⟩]⟩]

/-- The A* while-loop.  Each iteration stably sorts the open list by
ascending f (JavaScript Array.sort with comparator a.f - b.f is stable),
shifts the head, returns its recorded path minus the start on goal hit,
otherwise closes its coordinates and folds the four neighbour offsets over
the remaining open list.  The fuel strictly exceeds the maximum possible
number of iterations (each iteration permanently closes a fresh coordinate
out of at most 226 candidates: the 15 by 15 in-bounds cells plus the start
node), so the out-of-fuel branch is unreachable from planPath. -/
def searchLoop (grid : Grid) (target : Coordinates) :
    Nat → List Node → List Coordinates → List Coordinates
  | 0, _, _ => []
  | fuel + 1, openList, closed =>
    match List.insertionSort (fun a b : Node => a.f ≤ b.f) openList with
    | [] => []
    | currentNode :: rest =>
      if currentNode.x = target.x ∧ currentNode.y = target.y then
        currentNode.path.drop 1
      else
        let closed' :=
          if coordOf currentNode ∈ closed then closed else coordOf currentNode :: closed
        let openNext := offsets.foldl (pushNeighbor grid target currentNode closed') rest
        searchLoop grid target fuel openNext closed'

/-- planPath (src/services/navigation.ts lines 21-92). -/
def planPath (start target : Coordinates) (grid : Grid) : List Coordinates :=
  searchLoop grid target 1000 [⟨start.x, start.y, 0, 0, 0, [start]⟩] []

/-- One-step 4-adjacency, phrased through the planner offsets. -/
def adjacent (a b : Coordinates) : Prop :=
  ∃ off ∈ offsets, b = Coordinates.mk (a.x + off.1) (a.y + off.2)

instance adjacent.decidable (a b : Coordinates) : Decidable (adjacent a b) :=
  inferInstanceAs (Decidable (∃ off ∈ offsets, b = Coordinates.mk (a.x + off.1) (a.y + off.2)))

/-- A cell blocks the search only if it is a Wall and revealed. -/
def traversable (grid : Grid) (c : Coordinates) : Prop :=
  ¬((grid c).type = CellType.WALL ∧ (grid c).revealed = true)

instance traversable.decidable (g : Grid) (c : Coordinates) : Decidable (traversable g c) :=
  inferInstanceAs (Decidable ¬((g c).type = CellType.WALL ∧ (g c).revealed = true))

/-- In-bounds as a proposition. -/
def inBoundsP (c : Coordinates) : Prop := inBoundsB c.x c.y = true

instance inBoundsP.decidable (c : Coordinates) : Decidable (inBoundsP c) :=
  inferInstanceAs (Decidable (inBoundsB c.x c.y = true))

/-- A valid path from a start cell: consecutive 4-adjacent steps beginning
next to the start, every entered cell in bounds and traversable.  The
start cell itself is not part of the list and is not required to be
traversable (the robot already stands on it). -/
def ValidPath (grid : Grid) (start : Coordinates) (p : List Coordinates) : Prop :=
  List.Chain adjacent start p ∧ ∀ c ∈ p, inBoundsP c ∧ traversable grid c

instance ValidPath.decidable (g : Grid) (s : Coordinates) (p : List Coordinates) :
    Decidable (ValidPath g s p) :=
  inferInstanceAs (Decidable (List.Chain adjacent s p ∧ ∀ c ∈ p, inBoundsP c ∧ traversable g c))

/-- Boolean adjacency checker. -/
def adjacentB (a b : Coordinates) : Bool :=
  offsets.any (fun off => b == Coordinates.mk (a.x + off.1) (a.y + off.2))

/-- Boolean traversability checker. -/
def traversableB (g : Grid) (c : Coordinates) : Bool :=
  !((g c).type == CellType.WALL && (g c).revealed)

/-- Boolean valid-path checker, executable by kernel reduction. -/
def validPathB (g : Grid) : Coordinates → List Coordinates → Bool
  | _, [] => true
  | prev, c :: rest =>
    adjacentB prev c && (inBoundsB c.x c.y && (traversableB g c && validPathB g c rest))

/-- Target reachability from start under the traversability rule. -/
def Reachable (grid : Grid) (start target : Coordinates) : Prop :=
  ∃ p, ValidPath grid start p ∧ p ≠ [] ∧ p.getLast? = some target

/-- Total difficulty cost of a path: the sum of the movement cost of each
entered cell. -/
def pathCost (grid : Grid) (p : List Coordinates) : Nat :=
  (p.map (fun c => MOVEMENT_COST (grid c).type)).sum

/-- Concrete 5 by 5 scene used to refute planner optimality, padded to the
15 by 15 grid the source hardcodes with revealed walls. -/
def cexRows : List (List (CellType × Bool)) :=
  [[(CellType.FIRE, true), (CellType.EMPTY, true), (CellType.WALL, false), (CellType.WALL, true), (CellType.EMPTY, true)],
   [(CellType.DEBRIS, true), (CellType.EMPTY, false), (CellType.EMPTY, true), (CellType.DEBRIS, false), (CellType.DEBRIS, true)],
   [(CellType.WALL, true), (CellType.EMPTY, true), (CellType.EMPTY, true), (CellType.WALL, true), (CellType.FIRE, true)],
   [(CellType.DEBRIS, true), (CellType.WALL, true), (CellType.EMPTY, true), (CellType.EMPTY, false), (CellType.DEBRIS, true)],
   [(CellType.EMPTY, false), (CellType.DEBRIS, true), (CellType.DEBRIS, true), (CellType.DEBRIS, true), (CellType.WALL, true)]]

/-- The counterexample belief grid as a total function. -/
def cexGrid : Grid := fun c =>
  if 0 ≤ c.x ∧ c.x < 5 ∧ 0 ≤ c.y ∧ c.y < 5 then
    let p := (cexRows.getD c.y.toNat []).getD c.x.toNat (CellType.EMPTY, false)
    ⟨p.1, p.2⟩
  else ⟨CellType.WALL, true⟩

/-- A strictly cheaper alternative path for the optimality counterexample. -/
def cexCheaperPath : List Coordinates :=
  [⟨1, 0⟩, ⟨1, 1⟩, ⟨1, 2⟩, ⟨2, 2⟩, ⟨2, 3⟩, ⟨2, 4⟩, ⟨1, 4⟩, ⟨0, 4⟩]

/-- Pointwise grid update of one cell type (the source deep-copies the grid
array and mutates the copied cell). -/
def gridSetType (g : Grid) (at_ : Coordinates) (t : CellType) : Grid :=
  fun c => if c = at_ then ⟨t, (g c).revealed⟩ else g c

/-- The control and execution layer of one scheduler tick, given that the
robot is neither recharging nor planning this tick: fire suppression or
victim rescue on the next path cell (each consuming the whole tick), an
ordinary executeControlStep move, or path-exhausted status handling.  Fire
suppression and rescue subtract battery directly, without the Math.max
floor used inside executeControlStep. -/
def tickControl (grid : Grid) (robot : RobotState) (robotConfig : Option RobotConfig) :
    Grid × RobotState :=
  match robot.path with
  | nextStep :: rest =>
    let targetCell := grid nextStep
    if targetCell.type = CellType.FIRE then
      let batteryDrainRate := orOne (robotConfig.map RobotConfig.batteryDrainRate)
      (gridSetType grid nextStep CellType.DEBRIS,
        { robot with battery := robot.battery - 5 * batteryDrainRate,
                     firesExtinguished := robot.firesExtinguished + 1 })
    else if targetCell.type = CellType.VICTIM then
      let batteryDrainRate := orOne (robotConfig.map RobotConfig.batteryDrainRate)
      (gridSetType grid nextStep CellType.EMPTY,
        { robot with pos := nextStep, path := rest,
                     victimsRescued := robot.victimsRescued + 1,
                     battery := robot.battery - 10 * batteryDrainRate })
    else
      let controlResult := executeControlStep robot.pos nextStep robot.battery
        targetCell.type robotConfig
      if controlResult.success then
        (grid, { robot with pos := nextStep, path := rest,
                            battery := controlResult.newBattery,
                            status := RobotStatus.MOVING })
      else
        (grid, { robot with path := [], status := RobotStatus.IDLE })
  | [] =>
    if robot.pos.x = 0 ∧ robot.pos.y = 0 ∧ robot.battery < MAX_BATTERY then
      (grid, { robot with status := RobotStatus.RECHARGING })
    else
      (grid, { robot with status := RobotStatus.IDLE })

/-- Concrete grid for the rescue battery counterexample: a victim at (1,0). -/
def victimGrid : Grid := fun c =>
  if c = ⟨1, 0⟩ then ⟨CellType.VICTIM, true⟩ else ⟨CellType.EMPTY, true⟩

/-- All grid coordinates in row-major order (grid.flat()). -/
def coordsList : List Coordinates :=
  (List.range 15).flatMap (fun y => (List.range 15).map (fun x =>
    Coordinates.mk (x : Int) (y : Int)))

/-- The state update applied when an in-flight decision request resolves
(src/App.tsx lines 153-211).  The snapshot argument is the robot state
captured when runIntelligenceLayer was called (the EmergencyStop guard at
the top of the function and all position reads use it); the prev argument
is the robot state at the moment the awaited decision resolves and the
setRobot updater runs.  The random pick of the fallback exploration target
is modelled by an arbitrary index into the unrevealed-cell list. -/
def applyResolvedDecision (snapshot : RobotState) (grid : Grid)
    (decision : DecisionResponse) (pickIdx : Nat) (prev : RobotState) : RobotState :=
  if snapshot.status = RobotStatus.EMERGENCY_STOP then prev
  else if decision.action = ActionType.RECHARGE then
    if snapshot.pos.x = 0 ∧ snapshot.pos.y = 0 then
      { prev with status := RobotStatus.RECHARGING }
    else
      { prev with status := RobotStatus.MOVING,
                  path := planPath snapshot.pos ⟨0, 0⟩ grid,
                  currentGoal := decision.targetCoordinates }
  else
    match decision.targetCoordinates with
    | some tc =>
      let newPath := planPath snapshot.pos tc grid
      { prev with status := if newPath = [] then RobotStatus.IDLE else RobotStatus.MOVING,
                  path := newPath, currentGoal := some tc }
    | none =>
      if decision.action = ActionType.EXPLORE then
        let unknownCells := coordsList.filter (fun c => !(grid c).revealed)
        let newPath :=
          match unknownCells.get? (pickIdx % unknownCells.length) with
          | some t => planPath snapshot.pos t grid
          | none => []
        { prev with status := RobotStatus.MOVING, path := newPath, currentGoal := none }
      else
        { prev with status := RobotStatus.MOVING, path := [], currentGoal := none }

/-- A grid for the EmergencyStop race scenario: fully revealed and empty
except an unrevealed frontier cell at (5,5). -/
def estopGrid : Grid := fun c =>
  if c = ⟨5, 5⟩ then ⟨CellType.EMPTY, false⟩ else ⟨CellType.EMPTY, true⟩

/-- The procedurally generated base grid, before victim and fire placement
(src/App.tsx lines 91-103).  The r1 stream models the Math.random draw
compared against the obstacle density, r2 the draw choosing Wall against
Debris; the initial revealed patch is x < 2 and y < 2. -/
def baseGrid (obstacleDensity : ℚ) (r1 r2 : Coordinates → ℚ) : Grid := fun c =>
  let type :=
    if c.x = 0 ∧ c.y = 0 then CellType.START
    else if r1 c < obstacleDensity then
      (if r2 c > 0.5 then CellType.WALL else CellType.DEBRIS)
    else CellType.EMPTY
  ⟨type, decide (c.x < 2 ∧ c.y < 2)⟩

/-- placeRandom (src/App.tsx lines 106-118): rejection sampling of count
cells of the given type onto currently Empty cells outside the corner zone
rx ≤ 2 and ry ≤ 2, with an attempt cap of 1000.  The rand stream yields
the (rx, ry) draws, each Math.floor(Math.random() * GRID_SIZE) being a
number in 0..14; the fuel argument is 1000 minus the attempts used. -/
def placeLoop (rand : Nat → Coordinates) (t : CellType) (count : Nat) :
    Nat → Nat → Grid → Grid
  | _, 0, g => g
  | placed, fuel + 1, g =>
    if placed < count then
      let c := rand (1000 - (fuel + 1))
      if (g c).type = CellType.EMPTY ∧ (2 < c.x ∨ 2 < c.y) then
        placeLoop rand t count (placed + 1) fuel (gridSetType g c t)
      else
        placeLoop rand t count placed fuel g
    else g

/-- Conversion of a pair of bounded draws into coordinates. -/
def drawCoord (p : Fin 15 × Fin 15) : Coordinates := ⟨(p.1 : Int), (p.2 : Int)⟩

/-- The grid produced by initSimulation (src/App.tsx lines 85-121): base
generation, then victim placement, then fire placement. -/
def initGrid (obstacleDensity : ℚ) (r1 r2 : Coordinates → ℚ)
    (rv rf : Nat → Fin 15 × Fin 15) (victimCount fireCount : Nat) : Grid :=
  let g0 := baseGrid obstacleDensity r1 r2
  let g1 := placeLoop (fun i => drawCoord (rv i)) CellType.VICTIM victimCount 0 1000 g0
  placeLoop (fun i => drawCoord (rf i)) CellType.FIRE fireCount 0 1000 g1

/-- Snapshot robot state at the time the decision request was issued. -/
def estopSnapshot : RobotState :=
  ⟨⟨0, 0⟩, 80, 100, RobotStatus.IDLE, 0, 0, [], none⟩

/-- Robot state at resolution time: EmergencyStop engaged while the
request was pending, path cleared by handleEmergencyStop. -/
def estopPrev : RobotState :=
  ⟨⟨0, 0⟩, 80, 100, RobotStatus.EMERGENCY_STOP, 0, 0, [], none⟩

/-- The decision that resolves after the stop. -/
def estopDecision : DecisionResponse :=
  ⟨"frontier sweep", ActionType.EXPLORE, some ⟨5, 5⟩, Priority.LOW⟩

/-- Well-formedness of a search node: its recorded path starts at the
start cell, consists of adjacent steps through in-bounds traversable
cells, ends at the node coordinates, and never revisits the start. -/
def NodeOK (grid : Grid) (start : Coordinates) (n : Node) : Prop :=
  ∃ t, n.path = start :: t ∧ List.Chain adjacent start t ∧
    (∀ c ∈ t, inBoundsP c ∧ traversable grid c) ∧
    (start :: t).getLast? = some (coordOf n) ∧ start ∉ t

/-- Loop invariant of the A* search: open-list coordinates are duplicate
free, disjoint from the closed set and within the grid (or the start);
the closed set is duplicate free, within the grid (or the start), never
contains the target, and every traversable in-bounds neighbour of a
closed cell is closed or queued; the start is closed or queued; and
every queued node is well formed. -/
structure SearchInv (grid : Grid) (start target : Coordinates)
    (openL : List Node) (closed : List Coordinates) : Prop where
  openNodup : (openL.map coordOf).Nodup
  openNotClosed : ∀ n ∈ openL, coordOf n ∉ closed
  openAllowed : ∀ n ∈ openL, inBoundsP (coordOf n) ∨ coordOf n = start
  closedNodup : closed.Nodup
  closedAllowed : ∀ c ∈ closed, inBoundsP c ∨ c = start
  closedNotTarget : target ∉ closed
  frontierClosed : ∀ z ∈ closed, ∀ w, adjacent z w → inBoundsP w → traversable grid w →
      w ∈ closed ∨ w ∈ openL.map coordOf
  startIn : start ∈ closed ∨ start ∈ openL.map coordOf
  nodesOK : ∀ n ∈ openL, NodeOK grid start n

/-- Accumulator invariant threaded through the neighbour fold. -/
structure AccInv (grid : Grid) (start : Coordinates) (closed : List Coordinates)
    (acc : List Node) : Prop where
  nodup : (acc.map coordOf).Nodup
  notClosed : ∀ n ∈ acc, coordOf n ∉ closed
  allowed : ∀ n ∈ acc, inBoundsP (coordOf n) ∨ coordOf n = start
  ok : ∀ n ∈ acc, NodeOK grid start n
  startMem : start ∈ closed ∨ start ∈ acc.map coordOf

/-- A fully revealed all-Empty grid, used as the planner witness scene. -/
def demoGrid : Grid := fun _ => ⟨CellType.EMPTY, true⟩

/-! ## Theorems: the claims and their supporting lemmas -/

/-- jsMax agrees with the lattice max on the rationals. -/
theorem jsMax_eq_max (a b : ℚ) : jsMax a b = max a b := by
  unfold jsMax
  split
  · exact (max_eq_right (by assumption)).symm
  · exact (max_eq_left (le_of_not_le (by assumption))).symm

/-- Unfolding lemma for executeControlStep on a non-Wall target. -/
theorem executeControlStep_of_ne_wall (currentPos nextPos : Coordinates)
    (battery : ℚ) (cellType : CellType) (cfg : Option RobotConfig)
    (hw : cellType ≠ CellType.WALL) :
    executeControlStep currentPos nextPos battery cellType cfg =
      ⟨true, jsMax 0 (battery - movementDrain cellType
          (orOne (cfg.map RobotConfig.speedMultiplier))
          (orOne (cfg.map RobotConfig.batteryDrainRate))), none⟩ := by
  simp [executeControlStep, hw]

/-- C5: for every position pair, battery level and robot profile (present or
absent), executeControlStep onto a Wall cell fails with success = false,
battery unchanged, and the collision-fault message, independently of any
revealed flag (the function never consults one). -/
theorem executeControlStep_wall_collision :
    ∀ (currentPos nextPos : Coordinates) (battery : ℚ) (cfg : Option RobotConfig),
      executeControlStep currentPos nextPos battery CellType.WALL cfg =
        ⟨false, battery, some "COLLISION DETECTED"⟩ := by
  intro currentPos nextPos battery cfg
  rfl

/-- C6: for every non-Wall target cell type and positive profile rates,
executeControlStep succeeds with newBattery = max 0 (battery - drain) where
drain = 0.5 * cost * speedMultiplier * batteryDrainRate; an Empty move at
rates 1,1 drains exactly 0.5 and at speed 2 exactly 1.0; and the drain is
strictly increasing in each rate holding the other fixed. -/
theorem executeControlStep_drain_formula
    (currentPos nextPos : Coordinates) (battery : ℚ) (cfg : RobotConfig)
    (cellType : CellType) (hw : cellType ≠ CellType.WALL)
    (hs : 0 < cfg.speedMultiplier) (hr : 0 < cfg.batteryDrainRate) :
    executeControlStep currentPos nextPos battery cellType (some cfg) =
      ⟨true, max 0 (battery - movementDrain cellType cfg.speedMultiplier cfg.batteryDrainRate),
        none⟩ ∧
    movementDrain CellType.EMPTY 1 1 = 0.5 ∧
    movementDrain CellType.EMPTY 2 1 = 1 ∧
    (executeControlStep ⟨0, 0⟩ ⟨1, 0⟩ 100 CellType.EMPTY (some ⟨1, 1, 100⟩)).newBattery = 99.5 ∧
    (executeControlStep ⟨0, 0⟩ ⟨1, 0⟩ 100 CellType.EMPTY (some ⟨2, 1, 100⟩)).newBattery = 99 ∧
    (∀ s₁ s₂ r : ℚ, 0 < r → s₁ < s₂ →
      movementDrain cellType s₁ r < movementDrain cellType s₂ r) ∧
    (∀ s r₁ r₂ : ℚ, 0 < s → r₁ < r₂ →
      movementDrain cellType s r₁ < movementDrain cellType s r₂) := by
  have hcostpos : (0 : ℚ) < (MOVEMENT_COST cellType : ℚ) := by
    cases cellType <;> simp [MOVEMENT_COST] <;> norm_num
  refine ⟨?_, by norm_num [movementDrain, MOVEMENT_COST],
    by norm_num [movementDrain, MOVEMENT_COST], ?_, ?_, ?_, ?_⟩
  · have hsne : cfg.speedMultiplier ≠ 0 := ne_of_gt hs
    have hrne : cfg.batteryDrainRate ≠ 0 := ne_of_gt hr
    simp [executeControlStep, hw, orOne, hsne, hrne, jsMax_eq_max]
  · rw [executeControlStep_of_ne_wall _ _ _ _ _ (by decide)]
    norm_num [orOne, movementDrain, MOVEMENT_COST, jsMax]
  · rw [executeControlStep_of_ne_wall _ _ _ _ _ (by decide)]
    norm_num [orOne, movementDrain, MOVEMENT_COST, jsMax]
  · intro s₁ s₂ r hrpos hlt
    unfold movementDrain
    have h05 : (0 : ℚ) < 0.5 * (MOVEMENT_COST cellType : ℚ) := by positivity
    exact mul_lt_mul_of_pos_right (mul_lt_mul_of_pos_left hlt h05) hrpos
  · intro s r₁ r₂ hspos hlt
    unfold movementDrain
    have h05 : (0 : ℚ) < 0.5 * (MOVEMENT_COST cellType : ℚ) * s := by positivity
    exact mul_lt_mul_of_pos_left hlt h05

/-- Witness for C6 at a concrete input: cellType EMPTY, profile rates 1 and 1. -/
theorem executeControlStep_drain_formula_witness :
    executeControlStep ⟨0, 0⟩ ⟨1, 0⟩ 100 CellType.EMPTY (some ⟨1, 1, 100⟩) =
      ⟨true, max 0 ((100 : ℚ) - movementDrain CellType.EMPTY 1 1), none⟩ ∧
    movementDrain CellType.EMPTY 1 1 = 0.5 := by
  have h := executeControlStep_drain_formula ⟨0, 0⟩ ⟨1, 0⟩ 100 ⟨1, 1, 100⟩
    CellType.EMPTY (by decide) (by norm_num) (by norm_num)
  exact ⟨h.1, h.2.1⟩

/-- C2 counterexample: starting from the initial metrics, stepping once at
battery 50 and then once at battery 100 (a recharge; both in the range
0..100, with victim and fire counters constant, hence non-decreasing) makes
operationalCost strictly decrease, refuting the claimed monotonicity. -/
theorem operationalCost_not_monotone_cex :
    (updateMetrics (updateMetrics initialMetrics 50 0 225 0 0) 100 0 225 0 0).operationalCost
      < (updateMetrics initialMetrics 50 0 225 0 0).operationalCost ∧
    (updateMetrics initialMetrics 50 0 225 0 0).operationalCost = 250.5 ∧
    (updateMetrics (updateMetrics initialMetrics 50 0 225 0 0) 100 0 225 0 0).operationalCost = 1 := by
  refine ⟨?_, ?_, ?_⟩ <;>
    norm_num [updateMetrics, initialMetrics, MAX_BATTERY, COST_PER_STEP,
      COST_PER_BATTERY_PERCENT, VALUE_PER_RESCUE, VALUE_PER_HAZARD_CLEARED]

/-- C2 amended: across two successive updateMetrics calls with battery
inputs in 0..100 and non-decreasing victim and fire counters,
valueGenerated is non-decreasing unconditionally, while operationalCost is
non-decreasing whenever the battery level does not rise by more than
COST_PER_STEP / COST_PER_BATTERY_PERCENT = 0.1 between the calls (in
particular whenever it does not increase); a recharge can strictly
decrease it. -/
theorem updateMetrics_monotone_amended
    (m : SimulationMetrics) (b₁ b₂ : ℚ) (e₁ e₂ t₁ t₂ : Nat)
    (v₁ f₁ v₂ f₂ : Nat) (hv : v₁ ≤ v₂) (hf : f₁ ≤ f₂) :
    (updateMetrics m b₁ e₁ t₁ v₁ f₁).valueGenerated
      ≤ (updateMetrics (updateMetrics m b₁ e₁ t₁ v₁ f₁) b₂ e₂ t₂ v₂ f₂).valueGenerated ∧
    (b₂ ≤ b₁ + COST_PER_STEP / COST_PER_BATTERY_PERCENT →
      (updateMetrics m b₁ e₁ t₁ v₁ f₁).operationalCost
        ≤ (updateMetrics (updateMetrics m b₁ e₁ t₁ v₁ f₁) b₂ e₂ t₂ v₂ f₂).operationalCost) := by
  constructor
  · have hv' : (v₁ : ℚ) ≤ (v₂ : ℚ) := by exact_mod_cast hv
    have hf' : (f₁ : ℚ) ≤ (f₂ : ℚ) := by exact_mod_cast hf
    simp only [updateMetrics]
    have h1 : (v₁ : ℚ) * VALUE_PER_RESCUE ≤ (v₂ : ℚ) * VALUE_PER_RESCUE := by
      apply mul_le_mul_of_nonneg_right hv'
      norm_num [VALUE_PER_RESCUE]
    have h2 : (f₁ : ℚ) * VALUE_PER_HAZARD_CLEARED ≤ (f₂ : ℚ) * VALUE_PER_HAZARD_CLEARED := by
      apply mul_le_mul_of_nonneg_right hf'
      norm_num [VALUE_PER_HAZARD_CLEARED]
    linarith
  · intro hb
    simp only [updateMetrics]
    rw [COST_PER_STEP, COST_PER_BATTERY_PERCENT] at hb
    rw [COST_PER_STEP, COST_PER_BATTERY_PERCENT, MAX_BATTERY]
    push_cast
    nlinarith [hb]

/-- Witness for C2 amended at concrete inputs: both calls at battery 40,
counters stepping from (0,0) to (1,1). -/
theorem updateMetrics_monotone_amended_witness :
    (updateMetrics initialMetrics 40 0 225 0 0).valueGenerated
      ≤ (updateMetrics (updateMetrics initialMetrics 40 0 225 0 0) 40 0 225 1 1).valueGenerated ∧
    ((40 : ℚ) ≤ 40 + COST_PER_STEP / COST_PER_BATTERY_PERCENT →
      (updateMetrics initialMetrics 40 0 225 0 0).operationalCost
        ≤ (updateMetrics (updateMetrics initialMetrics 40 0 225 0 0) 40 0 225 1 1).operationalCost) := by
  exact updateMetrics_monotone_amended initialMetrics 40 40 0 0 225 225 0 0 1 1
    (by decide) (by decide)

/-- Revealed flag of the scan output, case analysis. -/
theorem scan_revealed_cases (g : Grid) (p c : Coordinates) :
    (((scanEnvironment g p).newMapState) c).revealed =
      ((g c).revealed || (mapUpdated g p && decide (c ∈ scanWindow p))) := by
  simp only [scanEnvironment]
  by_cases hm : mapUpdated g p
  · simp only [hm, if_true, Bool.true_and]
    by_cases hc : c ∈ scanWindow p
    · simp [hc]
    · simp [hc]
  · simp only [Bool.not_eq_true] at hm
    simp [hm]

/-- C7: every cell revealed in the input grid is still revealed in the grid
returned by scanEnvironment, and consequently the revealed set never
shrinks across any sequence of scan calls. -/
theorem scanEnvironment_reveal_monotone :
    (∀ (g : Grid) (p c : Coordinates), (g c).revealed = true →
        (((scanEnvironment g p).newMapState) c).revealed = true) ∧
    (∀ (ps : List Coordinates) (g : Grid) (c : Coordinates), (g c).revealed = true →
        ((ps.foldl (fun acc p => (scanEnvironment acc p).newMapState) g) c).revealed = true) := by
  have hone : ∀ (g : Grid) (p c : Coordinates), (g c).revealed = true →
      (((scanEnvironment g p).newMapState) c).revealed = true := by
    intro g p c h
    rw [scan_revealed_cases, h, Bool.true_or]
  refine ⟨hone, ?_⟩
  intro ps
  induction ps with
  | nil => intro g c h; simpa using h
  | cons p ps ih =>
    intro g c h
    simpa using ih ((scanEnvironment g p).newMapState) c (hone g p c h)

/-- Witness for C7 at a concrete input: a fully revealed grid stays
revealed at (0,0) after a scan at (7,7) and after scans at (3,3), (9,9). -/
theorem scanEnvironment_reveal_monotone_witness :
    (((scanEnvironment (fun _ => ⟨CellType.EMPTY, true⟩) ⟨7, 7⟩).newMapState) ⟨0, 0⟩).revealed = true ∧
    (([⟨3, 3⟩, ⟨9, 9⟩] : List Coordinates).foldl
        (fun acc p => (scanEnvironment acc p).newMapState) (fun _ => ⟨CellType.EMPTY, true⟩)
        ⟨0, 0⟩).revealed = true := by
  constructor
  · exact scanEnvironment_reveal_monotone.1 (fun _ => ⟨CellType.EMPTY, true⟩) ⟨7, 7⟩ ⟨0, 0⟩ rfl
  · exact scanEnvironment_reveal_monotone.2 [⟨3, 3⟩, ⟨9, 9⟩] (fun _ => ⟨CellType.EMPTY, true⟩) ⟨0, 0⟩ rfl

/-- C9: scanEnvironment is free of side effects on its input grid (the
embedding is a pure function of the input; the source deep-copies before
writing).  Concretely: cell types are never changed, cells outside the
sensor window are untouched, the input grid value is returned exactly when
no cell became newly revealed, and when some cell did become revealed the
returned grid genuinely differs from the input. -/
theorem scanEnvironment_pure_frame (g : Grid) (p : Coordinates) :
    (∀ c, (((scanEnvironment g p).newMapState) c).type = (g c).type) ∧
    (∀ c, c ∉ scanWindow p → ((scanEnvironment g p).newMapState) c = g c) ∧
    (mapUpdated g p = false → (scanEnvironment g p).newMapState = g) ∧
    (mapUpdated g p = true ↔ ∃ c, c ∈ scanWindow p ∧ (g c).revealed = false) ∧
    (mapUpdated g p = true → (scanEnvironment g p).newMapState ≠ g) := by
  refine ⟨?_, ?_, ?_, ?_, ?_⟩
  · intro c
    simp only [scanEnvironment]
    by_cases hm : mapUpdated g p
    · simp only [hm, if_true]
      by_cases hc : c ∈ scanWindow p
      · simp [hc]
      · simp [hc]
    · simp only [Bool.not_eq_true] at hm
      simp [hm]
  · intro c hc
    simp only [scanEnvironment]
    by_cases hm : mapUpdated g p
    · simp only [hm, if_true]
      simp [hc]
    · simp only [Bool.not_eq_true] at hm
      simp [hm]
  · intro hm
    simp [scanEnvironment, hm]
  · unfold mapUpdated
    rw [List.any_eq_true]
    constructor
    · rintro ⟨c, hc, hrev⟩
      exact ⟨c, hc, by simpa using hrev⟩
    · rintro ⟨c, hc, hrev⟩
      exact ⟨c, hc, by simpa using hrev⟩
  · intro hm heq
    obtain ⟨c, hc, hrev⟩ := (by
      unfold mapUpdated at hm
      rw [List.any_eq_true] at hm
      exact hm : ∃ c ∈ scanWindow p, (!(g c).revealed) = true)
    have h1 : (((scanEnvironment g p).newMapState) c).revealed = true := by
      simp only [scanEnvironment, hm, if_true]
      simp [hc]
    rw [heq] at h1
    simp [h1] at hrev

/-- Witness for C9 implications at a concrete input: an unrevealed grid
scanned at (0,0). -/
theorem scanEnvironment_pure_frame_witness :
    ((scanEnvironment (fun _ => ⟨CellType.EMPTY, false⟩) ⟨0, 0⟩).newMapState ⟨0, 0⟩).type
        = ((fun _ => (⟨CellType.EMPTY, false⟩ : Cell)) (⟨0, 0⟩ : Coordinates)).type ∧
    (mapUpdated (fun _ => ⟨CellType.EMPTY, false⟩) ⟨0, 0⟩ = true ↔
      ∃ c, c ∈ scanWindow ⟨0, 0⟩ ∧
        ((fun _ => (⟨CellType.EMPTY, false⟩ : Cell)) c).revealed = false) := by
  exact ⟨(scanEnvironment_pure_frame (fun _ => ⟨CellType.EMPTY, false⟩) ⟨0, 0⟩).1 ⟨0, 0⟩,
    (scanEnvironment_pure_frame (fun _ => ⟨CellType.EMPTY, false⟩) ⟨0, 0⟩).2.2.2.1⟩

/-- The attempt counter only moves forward by the number of loop turns. -/
theorem geminiLoop_attempts_le (oracle : Nat → OracleOutcome) :
    ∀ (remaining attempts backoff : Nat),
      (geminiLoop oracle attempts backoff remaining).attemptsUsed ≤ attempts + remaining := by
  intro remaining
  induction remaining with
  | zero => intro attempts backoff; simp [geminiLoop]
  | succ n ih =>
    intro attempts backoff
    simp only [geminiLoop]
    match h : oracle attempts with
    | OracleOutcome.success d => simp [h] <;> omega
    | OracleOutcome.emptyText => simp [h, classifyRateLimit] <;> omega
    | OracleOutcome.parseFail => simp [h, classifyRateLimit] <;> omega
    | OracleOutcome.apiError rl =>
      simp only [h]
      by_cases hc : (classifyRateLimit (OracleOutcome.apiError rl) && decide (attempts + 1 < 3)) = true
      · simp only [hc, if_true]
        have := ih (attempts + 1) (backoff * 2)
        simpa [Nat.add_assoc, Nat.add_comm, Nat.add_left_comm] using this
      · simp only [Bool.not_eq_true] at hc
        simp [hc] <;> omega

/-- C8: the decision orchestrator runs at most 3 oracle attempts; three
consecutive throttling faults return the deterministic fallback with
action Explore, priority Low and a reasoning string describing the fault,
after backoff waits of exactly 2000 ms then 4000 ms; a non-throttling
error, or an empty or malformed response, returns the same fallback
immediately; and every oracle behaviour yields a decision (the embedding
is total, mirroring the source where every failure path is caught and
returns). -/
theorem gemini_fallback_policy (oracle : Nat → OracleOutcome) :
    (getDecisionFromGemini oracle).attemptsUsed ≤ 3 ∧
    ((∀ i, i < 3 → oracle i = OracleOutcome.apiError true) →
      getDecisionFromGemini oracle =
        ⟨fallbackDecision, 3, [2000, 4000]⟩ ∧
      fallbackDecision.action = ActionType.EXPLORE ∧
      fallbackDecision.priority = Priority.LOW ∧
      fallbackDecision.reasoning =
        "Communication fault or Rate Limit with AI Core. Initiating fallback exploration.") ∧
    (oracle 0 = OracleOutcome.apiError false →
      getDecisionFromGemini oracle = ⟨fallbackDecision, 1, []⟩) ∧
    (oracle 0 = OracleOutcome.emptyText →
      getDecisionFromGemini oracle = ⟨fallbackDecision, 1, []⟩) ∧
    (oracle 0 = OracleOutcome.parseFail →
      getDecisionFromGemini oracle = ⟨fallbackDecision, 1, []⟩) ∧
    (∀ d, oracle 0 = OracleOutcome.success d →
      getDecisionFromGemini oracle = ⟨d, 1, []⟩) := by
  refine ⟨?_, ?_, ?_, ?_, ?_, ?_⟩
  · simpa using geminiLoop_attempts_le oracle 3 0 2000
  · intro hthr
    have h0 := hthr 0 (by omega)
    have h1 := hthr 1 (by omega)
    have h2 := hthr 2 (by omega)
    refine ⟨?_, rfl, rfl, rfl⟩
    simp [getDecisionFromGemini, geminiLoop, h0, h1, h2, classifyRateLimit]
  · intro h0
    simp [getDecisionFromGemini, geminiLoop, h0, classifyRateLimit]
  · intro h0
    simp [getDecisionFromGemini, geminiLoop, h0, classifyRateLimit]
  · intro h0
    simp [getDecisionFromGemini, geminiLoop, h0, classifyRateLimit]
  · intro d h0
    simp [getDecisionFromGemini, geminiLoop, h0]

/-- Witness for C8 at a concrete oracle that is throttled on every attempt. -/
theorem gemini_fallback_policy_witness :
    (getDecisionFromGemini (fun _ => OracleOutcome.apiError true)).attemptsUsed ≤ 3 ∧
    getDecisionFromGemini (fun _ => OracleOutcome.apiError true) =
      ⟨fallbackDecision, 3, [2000, 4000]⟩ := by
  have h := gemini_fallback_policy (fun _ => OracleOutcome.apiError true)
  exact ⟨h.1, (h.2.1 (fun i _ => rfl)).1⟩

/-- Boolean adjacency agrees with propositional adjacency. -/
theorem adjacentB_iff (a b : Coordinates) : adjacentB a b = true ↔ adjacent a b := by
  simp [adjacentB, adjacent, List.any_eq_true]

/-- Boolean traversability agrees with propositional traversability. -/
theorem traversableB_iff (g : Grid) (c : Coordinates) :
    traversableB g c = true ↔ traversable g c := by
  simp [traversableB, traversable]
  tauto

/-- The Boolean path checker agrees with ValidPath. -/
theorem validPathB_iff (g : Grid) :
    ∀ (s : Coordinates) (p : List Coordinates), validPathB g s p = true ↔ ValidPath g s p := by
  intro s p
  induction p generalizing s with
  | nil => simp [validPathB, ValidPath]
  | cons c rest ih =>
    simp only [validPathB, Bool.and_eq_true, adjacentB_iff, traversableB_iff, ih,
      ValidPath, List.chain_cons, List.mem_cons, inBoundsP]
    constructor
    · rintro ⟨ha, hb, ht, hchain, hall⟩
      exact ⟨⟨ha, hchain⟩, fun d hd => by
        rcases hd with rfl | hd
        · exact ⟨hb, ht⟩
        · exact hall d hd⟩
    · rintro ⟨⟨ha, hchain⟩, hall⟩
      refine ⟨ha, (hall c (Or.inl rfl)).1, (hall c (Or.inl rfl)).2, hchain, ?_⟩
      exact fun d hd => hall d (Or.inr hd)

/-- C1 counterexample: on this concrete belief grid the planner returns a
path of total difficulty cost 14 from (0,0) to (0,4), while a valid path
of cost 12 exists under the same traversability rule, so the returned path
is not of minimal total difficulty cost.  The improved g-cost dropped by
the open-list handling is responsible. -/
theorem planPath_not_optimal_cex :
    planPath ⟨0, 0⟩ ⟨0, 4⟩ cexGrid =
      [⟨0, 1⟩, ⟨1, 1⟩, ⟨1, 2⟩, ⟨2, 2⟩, ⟨2, 3⟩, ⟨2, 4⟩, ⟨1, 4⟩, ⟨0, 4⟩] ∧
    pathCost cexGrid (planPath ⟨0, 0⟩ ⟨0, 4⟩ cexGrid) = 14 ∧
    ValidPath cexGrid ⟨0, 0⟩ cexCheaperPath ∧
    cexCheaperPath.getLast? = some ⟨0, 4⟩ ∧
    pathCost cexGrid cexCheaperPath = 12 :=
  ⟨by decide, by decide, (validPathB_iff cexGrid ⟨0, 0⟩ cexCheaperPath).mp (by decide),
    by decide, by decide⟩

/-- The jsMax floor is never negative when floored at 0. -/
theorem jsMax_zero_nonneg (q : ℚ) : 0 ≤ jsMax 0 q := by
  unfold jsMax
  split
  · assumption
  · exact le_refl 0

/-- C3 counterexample: a rescue step on a Victim cell with battery 2 and
batteryDrainRate 1 leaves the battery at -8, strictly below 0, while
victimsRescued is incremented by exactly 1; the tick-loop Victim branch
subtracts 10 * batteryDrainRate without the Math.max floor. -/
theorem rescue_negative_battery_cex :
    ((tickControl victimGrid ⟨⟨0, 0⟩, 2, 100, RobotStatus.MOVING, 0, 0, [⟨1, 0⟩], none⟩
        (some ⟨1, 1, 100⟩)).2).battery = -8 ∧
    ((tickControl victimGrid ⟨⟨0, 0⟩, 2, 100, RobotStatus.MOVING, 0, 0, [⟨1, 0⟩], none⟩
        (some ⟨1, 1, 100⟩)).2).battery < 0 ∧
    ((tickControl victimGrid ⟨⟨0, 0⟩, 2, 100, RobotStatus.MOVING, 0, 0, [⟨1, 0⟩], none⟩
        (some ⟨1, 1, 100⟩)).2).victimsRescued = 1 := by
  have hvf : ¬(CellType.VICTIM = CellType.FIRE) := by decide
  refine ⟨?_, ?_, ?_⟩ <;>
    · norm_num [tickControl, victimGrid, orOne, gridSetType]
      try rw [if_neg hvf]
      try norm_num

/-- C3 amended: after an ordinary move the battery is floored at 0 by
executeControlStep and never negative; a collision attempt leaves battery
unchanged; a rescue on a Victim cell increments victimsRescued by exactly
1 but subtracts 10 * batteryDrainRate without flooring, staying
nonnegative only when the battery was at least that drain; fire
suppression likewise subtracts 5 * batteryDrainRate unfloored and
increments firesExtinguished by exactly 1. -/
theorem tickControl_battery_amended (grid : Grid) (robot : RobotState)
    (cfg : Option RobotConfig) (next : Coordinates) (rest : List Coordinates)
    (hpath : robot.path = next :: rest) :
    ((grid next).type ≠ CellType.FIRE → (grid next).type ≠ CellType.VICTIM →
      (grid next).type ≠ CellType.WALL →
      0 ≤ ((tickControl grid robot cfg).2).battery ∧
      ((tickControl grid robot cfg).2).pos = next) ∧
    ((grid next).type = CellType.WALL →
      ((tickControl grid robot cfg).2).battery = robot.battery ∧
      ((tickControl grid robot cfg).2).path = []) ∧
    ((grid next).type = CellType.VICTIM →
      ((tickControl grid robot cfg).2).victimsRescued = robot.victimsRescued + 1 ∧
      ((tickControl grid robot cfg).2).battery =
        robot.battery - 10 * orOne (cfg.map RobotConfig.batteryDrainRate) ∧
      (10 * orOne (cfg.map RobotConfig.batteryDrainRate) ≤ robot.battery →
        0 ≤ ((tickControl grid robot cfg).2).battery)) ∧
    ((grid next).type = CellType.FIRE →
      ((tickControl grid robot cfg).2).firesExtinguished = robot.firesExtinguished + 1 ∧
      ((tickControl grid robot cfg).2).battery =
        robot.battery - 5 * orOne (cfg.map RobotConfig.batteryDrainRate)) := by
  obtain ⟨pos, bat, hea, st, vr, fe, path, goal⟩ := robot
  simp only at hpath
  subst hpath
  refine ⟨?_, ?_, ?_, ?_⟩
  · intro hf hv hw
    simp only [tickControl, if_neg hf, if_neg hv]
    rw [executeControlStep_of_ne_wall _ _ _ _ _ hw]
    exact ⟨jsMax_zero_nonneg _, rfl⟩
  · intro hw
    have hf : (grid next).type ≠ CellType.FIRE := by rw [hw]; decide
    have hv : (grid next).type ≠ CellType.VICTIM := by rw [hw]; decide
    simp only [tickControl, if_neg hf, if_neg hv, executeControlStep, if_pos hw]
    exact ⟨by trivial, by trivial⟩
  · intro hv
    have hf : (grid next).type ≠ CellType.FIRE := by rw [hv]; decide
    simp only [tickControl, if_neg hf, if_pos hv]
    refine ⟨by trivial, by trivial, ?_⟩
    intro hb
    linarith
  · intro hf
    simp only [tickControl, if_pos hf]
    exact ⟨by trivial, by trivial⟩

/-- Witness for C3 amended at a concrete input: rescue at (1,0) with
battery 50 and drain rate 1. -/
theorem tickControl_battery_amended_witness :
    ((tickControl victimGrid ⟨⟨0, 0⟩, 50, 100, RobotStatus.MOVING, 0, 0, [⟨1, 0⟩], none⟩
        (some ⟨1, 1, 100⟩)).2).victimsRescued = 0 + 1 ∧
    ((tickControl victimGrid ⟨⟨0, 0⟩, 50, 100, RobotStatus.MOVING, 0, 0, [⟨1, 0⟩], none⟩
        (some ⟨1, 1, 100⟩)).2).battery =
      50 - 10 * orOne ((some (⟨1, 1, 100⟩ : RobotConfig)).map RobotConfig.batteryDrainRate) ∧
    (10 * orOne ((some (⟨1, 1, 100⟩ : RobotConfig)).map RobotConfig.batteryDrainRate) ≤ 50 →
      0 ≤ ((tickControl victimGrid ⟨⟨0, 0⟩, 50, 100, RobotStatus.MOVING, 0, 0, [⟨1, 0⟩], none⟩
          (some ⟨1, 1, 100⟩)).2).battery) := by
  exact (tickControl_battery_amended victimGrid
    ⟨⟨0, 0⟩, 50, 100, RobotStatus.MOVING, 0, 0, [⟨1, 0⟩], none⟩
    (some ⟨1, 1, 100⟩) ⟨1, 0⟩ [] rfl).2.2.1 (by norm_num [victimGrid])

/-- C4 (code bug witness): when EmergencyStop is engaged while a decision
request is pending, the resolution is nevertheless applied: the final
setRobot updater of runIntelligenceLayer overwrites the EmergencyStop
status with Moving and installs a non-empty path, because the guard at the
top of the function checks the stale snapshot and is never re-checked
after the await. -/
theorem estop_decision_applied_bug :
    estopPrev.status = RobotStatus.EMERGENCY_STOP ∧
    estopPrev.path = [] ∧
    (applyResolvedDecision estopSnapshot estopGrid estopDecision 0 estopPrev).status
      = RobotStatus.MOVING ∧
    (applyResolvedDecision estopSnapshot estopGrid estopDecision 0 estopPrev).status
      ≠ RobotStatus.EMERGENCY_STOP ∧
    (applyResolvedDecision estopSnapshot estopGrid estopDecision 0 estopPrev).path ≠ [] := by
  refine ⟨rfl, rfl, ?_, ?_, ?_⟩ <;> decide

/-- gridSetType away from the written cell is the identity. -/
theorem gridSetType_ne (g : Grid) (at_ : Coordinates) (t : CellType) (c : Coordinates)
    (h : ¬c = at_) : gridSetType g at_ t c = g c := by
  simp [gridSetType, h]

/-- gridSetType never changes a revealed flag. -/
theorem gridSetType_revealed (g : Grid) (at_ : Coordinates) (t : CellType) (c : Coordinates) :
    (gridSetType g at_ t c).revealed = (g c).revealed := by
  unfold gridSetType
  split <;> rfl

/-- Every cell either keeps its type through placeLoop, or was an Empty
cell outside the 3 by 3 corner zone and now carries the placed type. -/
theorem placeLoop_type_cases (rand : Nat → Coordinates) (t : CellType) (count : Nat) :
    ∀ (fuel placed : Nat) (g : Grid) (c : Coordinates),
      ((placeLoop rand t count placed fuel g) c).type = (g c).type ∨
      ((g c).type = CellType.EMPTY ∧ (2 < c.x ∨ 2 < c.y) ∧
        ((placeLoop rand t count placed fuel g) c).type = t) := by
  intro fuel
  induction fuel with
  | zero => intro placed g c; left; rfl
  | succ n ih =>
    intro placed g c
    by_cases hp : placed < count
    · by_cases hcond : (g (rand (1000 - (n + 1)))).type = CellType.EMPTY ∧
        (2 < (rand (1000 - (n + 1))).x ∨ 2 < (rand (1000 - (n + 1))).y)
      · have hstep : placeLoop rand t count placed (n + 1) g =
            placeLoop rand t count (placed + 1) n (gridSetType g (rand (1000 - (n + 1))) t) := by
          simp only [placeLoop, if_pos hp, if_pos hcond]
        rw [hstep]
        rcases ih (placed + 1) (gridSetType g (rand (1000 - (n + 1))) t) c with h | ⟨he, hz, ht⟩
        · by_cases hc : c = rand (1000 - (n + 1))
          · subst hc
            right
            refine ⟨hcond.1, hcond.2, ?_⟩
            rw [h]
            simp [gridSetType]
          · left
            rw [h, gridSetType_ne _ _ _ _ hc]
        · by_cases hc : c = rand (1000 - (n + 1))
          · subst hc
            exact Or.inr ⟨hcond.1, hcond.2, ht⟩
          · right
            rw [gridSetType_ne _ _ _ _ hc] at he
            exact ⟨he, hz, ht⟩
      · have hstep : placeLoop rand t count placed (n + 1) g =
            placeLoop rand t count placed n g := by
          simp only [placeLoop, if_pos hp, if_neg hcond]
        rw [hstep]
        exact ih placed g c
    · have hstep : placeLoop rand t count placed (n + 1) g = g := by
        simp only [placeLoop, if_neg hp]
      rw [hstep]
      left
      rfl

/-- placeLoop never touches a revealed flag. -/
theorem placeLoop_revealed (rand : Nat → Coordinates) (t : CellType) (count : Nat) :
    ∀ (fuel placed : Nat) (g : Grid) (c : Coordinates),
      ((placeLoop rand t count placed fuel g) c).revealed = (g c).revealed := by
  intro fuel
  induction fuel with
  | zero => intro placed g c; rfl
  | succ n ih =>
    intro placed g c
    by_cases hp : placed < count
    · by_cases hcond : (g (rand (1000 - (n + 1)))).type = CellType.EMPTY ∧
        (2 < (rand (1000 - (n + 1))).x ∨ 2 < (rand (1000 - (n + 1))).y)
      · have hstep : placeLoop rand t count placed (n + 1) g =
            placeLoop rand t count (placed + 1) n (gridSetType g (rand (1000 - (n + 1))) t) := by
          simp only [placeLoop, if_pos hp, if_pos hcond]
        rw [hstep, ih]
        exact gridSetType_revealed _ _ _ _
      · have hstep : placeLoop rand t count placed (n + 1) g =
            placeLoop rand t count placed n g := by
          simp only [placeLoop, if_pos hp, if_neg hcond]
        rw [hstep, ih]
    · have hstep : placeLoop rand t count placed (n + 1) g = g := by
        simp only [placeLoop, if_neg hp]
      rw [hstep]

/-- The base generation never produces a Victim or a Fire. -/
theorem baseGrid_no_assets (d : ℚ) (r1 r2 : Coordinates → ℚ) (c : Coordinates) :
    ((baseGrid d r1 r2) c).type ≠ CellType.VICTIM ∧
    ((baseGrid d r1 r2) c).type ≠ CellType.FIRE := by
  simp only [baseGrid]
  split_ifs <;> exact ⟨by decide, by decide⟩

/-- C10: in every grid produced by the scenario initialization, for every
outcome of the random streams, each Victim or Fire cell sits on a cell
that was Empty in the base generation and lies outside the 3 by 3 corner
zone (its coordinates satisfy x > 2 or y > 2), while the initially
revealed patch is exactly x < 2 and y < 2 (strictly smaller than the
excluded corner). -/
theorem initGrid_placement_zone (d : ℚ) (r1 r2 : Coordinates → ℚ)
    (rv rf : Nat → Fin 15 × Fin 15) (vc fc : Nat) (c : Coordinates) :
    (((initGrid d r1 r2 rv rf vc fc) c).type = CellType.VICTIM ∨
      ((initGrid d r1 r2 rv rf vc fc) c).type = CellType.FIRE →
      ((baseGrid d r1 r2) c).type = CellType.EMPTY ∧ (2 < c.x ∨ 2 < c.y)) ∧
    (((initGrid d r1 r2 rv rf vc fc) c).revealed = true ↔ c.x < 2 ∧ c.y < 2) := by
  have hbase := baseGrid_no_assets d r1 r2 c
  have hvic := placeLoop_type_cases (fun i => drawCoord (rv i)) CellType.VICTIM vc 1000 0
    (baseGrid d r1 r2) c
  have hfire := placeLoop_type_cases (fun i => drawCoord (rf i)) CellType.FIRE fc 1000 0
    (placeLoop (fun i => drawCoord (rv i)) CellType.VICTIM vc 0 1000 (baseGrid d r1 r2)) c
  constructor
  · intro hasset
    rcases hasset with hV | hF
    · rcases hfire with h2 | ⟨h2e, h2z, h2t⟩
      · rw [show initGrid d r1 r2 rv rf vc fc = placeLoop (fun i => drawCoord (rf i))
            CellType.FIRE fc 0 1000 (placeLoop (fun i => drawCoord (rv i)) CellType.VICTIM vc 0
            1000 (baseGrid d r1 r2)) from rfl] at hV
        rw [hV] at h2
        rcases hvic with h1 | ⟨h1e, h1z, h1t⟩
        · exact absurd (h1 ▸ h2.symm) hbase.1
        · exact ⟨h1e, h1z⟩
      · rw [show initGrid d r1 r2 rv rf vc fc = placeLoop (fun i => drawCoord (rf i))
            CellType.FIRE fc 0 1000 (placeLoop (fun i => drawCoord (rv i)) CellType.VICTIM vc 0
            1000 (baseGrid d r1 r2)) from rfl] at hV
        rw [hV] at h2t
        exact absurd h2t.symm (by decide)
    · rcases hfire with h2 | ⟨h2e, h2z, h2t⟩
      · rw [show initGrid d r1 r2 rv rf vc fc = placeLoop (fun i => drawCoord (rf i))
            CellType.FIRE fc 0 1000 (placeLoop (fun i => drawCoord (rv i)) CellType.VICTIM vc 0
            1000 (baseGrid d r1 r2)) from rfl] at hF
        rw [hF] at h2
        rcases hvic with h1 | ⟨h1e, h1z, h1t⟩
        · exact absurd (h1 ▸ h2.symm) hbase.2
        · rw [h1t] at h2
          exact absurd h2.symm (by decide)
      · rcases hvic with h1 | ⟨h1e, h1z, h1t⟩
        · rw [h1] at h2e
          exact ⟨h2e, h2z⟩
        · rw [h1t] at h2e
          exact absurd h2e (by decide)
  · rw [show initGrid d r1 r2 rv rf vc fc = placeLoop (fun i => drawCoord (rf i))
        CellType.FIRE fc 0 1000 (placeLoop (fun i => drawCoord (rv i)) CellType.VICTIM vc 0
        1000 (baseGrid d r1 r2)) from rfl]
    rw [placeLoop_revealed, placeLoop_revealed]
    simp only [baseGrid]
    exact decide_eq_true_iff

/-- Witness for C10 at concrete streams: density 0, the victim draw always
(3,3), the fire draw always (4,4), one victim and one fire; the cell (3,3)
carries the Victim and satisfies the conclusion. -/
theorem initGrid_placement_zone_witness :
    ((baseGrid 0 (fun _ => 1) (fun _ => 1)) ⟨3, 3⟩).type = CellType.EMPTY ∧
    (2 < (3 : Int) ∨ 2 < (3 : Int)) := by
  have h := (initGrid_placement_zone 0 (fun _ => 1) (fun _ => 1)
    (fun _ => (3, 3)) (fun _ => (4, 4)) 1 1 ⟨3, 3⟩).1
  exact ⟨(h (Or.inl (by decide))).1, by norm_num⟩

/-- getLast? ignores the head of a list with a nonempty tail. -/
theorem getLast?_cons_of_ne_nil {α : Type _} (x : α) :
    ∀ (l : List α), l ≠ [] → (x :: l).getLast? = l.getLast?
  | [], h => absurd rfl h
  | _ :: _, _ => List.getLast?_cons_cons

/-- A chain can be extended by one step at its last element. -/
theorem chain_snoc {r : Coordinates → Coordinates → Prop} :
    ∀ (t : List Coordinates) (s z w : Coordinates), List.Chain r s t →
      (s :: t).getLast? = some z → r z w → List.Chain r s (t ++ [w]) := by
  intro t
  induction t with
  | nil =>
    intro s z w _ hlast hr
    simp only [List.getLast?_singleton, Option.some_inj] at hlast
    subst hlast
    exact List.Chain.cons hr List.Chain.nil
  | cons c t ih =>
    intro s z w hchain hlast hr
    rcases hchain with _ | ⟨hsc, hct⟩
    refine List.Chain.cons hsc ?_
    rw [List.getLast?_cons_cons] at hlast
    exact ih c z w hct hlast hr

/-- The characterization of the Boolean bounds check. -/
theorem inBoundsB_iff (x y : Int) :
    inBoundsB x y = true ↔ 0 ≤ x ∧ x < 15 ∧ 0 ≤ y ∧ y < 15 := by
  simp [inBoundsB, GRID_SIZE, and_assoc]

/-- The coordinates a closed-set entry can take: grid cells or the start. -/
theorem closed_length_le (start : Coordinates) (closed : List Coordinates)
    (hnd : closed.Nodup) (hal : ∀ c ∈ closed, inBoundsP c ∨ c = start) :
    closed.length ≤ 226 := by
  classical
  set S : Finset Coordinates :=
    ((Finset.Icc (0 : Int) 14) ×ˢ (Finset.Icc (0 : Int) 14)).image
      (fun p => Coordinates.mk p.1 p.2) ∪ {start} with hS
  have hsub : closed.toFinset ⊆ S := by
    intro c hc
    rw [List.mem_toFinset] at hc
    rcases hal c hc with hb | hb
    · rw [inBoundsP, inBoundsB_iff] at hb
      refine Finset.mem_union_left _ ?_
      refine Finset.mem_image.mpr ⟨(c.x, c.y), ?_, rfl⟩
      refine Finset.mem_product.mpr ⟨?_, ?_⟩
      · exact Finset.mem_Icc.mpr ⟨hb.1, by omega⟩
      · exact Finset.mem_Icc.mpr ⟨hb.2.2.1, by omega⟩
    · subst hb
      exact Finset.mem_union_right _ (Finset.mem_singleton_self c)
  have hcard : S.card ≤ 226 := by
    have h1 : S.card ≤
        (((Finset.Icc (0 : Int) 14) ×ˢ (Finset.Icc (0 : Int) 14)).image
          (fun p => Coordinates.mk p.1 p.2)).card + ({start} : Finset Coordinates).card :=
      Finset.card_union_le _ _
    have h2 : (((Finset.Icc (0 : Int) 14) ×ˢ (Finset.Icc (0 : Int) 14)).image
        (fun p => Coordinates.mk p.1 p.2)).card ≤ 225 := by
      refine le_trans (Finset.card_image_le) ?_
      rw [Finset.card_product]
      simp [Int.card_Icc]
    rw [Finset.card_singleton] at h1
    omega
  calc closed.length = closed.toFinset.card := (List.toFinset_card_of_nodup hnd).symm
    _ ≤ S.card := Finset.card_le_card hsub
    _ ≤ 226 := hcard

/-- If the closed set is closed under traversable in-bounds neighbours,
it absorbs every valid chain starting inside it. -/
theorem path_in_closed (grid : Grid) (closed : List Coordinates)
    (hfc : ∀ z ∈ closed, ∀ w, adjacent z w → inBoundsP w → traversable grid w → w ∈ closed) :
    ∀ (p : List Coordinates) (s : Coordinates), s ∈ closed → List.Chain adjacent s p →
      (∀ c ∈ p, inBoundsP c ∧ traversable grid c) → ∀ c ∈ p, c ∈ closed := by
  intro p
  induction p with
  | nil => intro s _ _ _ c hc; cases hc
  | cons c p ih =>
    intro s hs hchain hall d hd
    rcases hchain with _ | ⟨hsc, hcp⟩
    have hcmem : c ∈ closed :=
      hfc s hs c hsc (hall c (List.mem_cons_self c p)).1 (hall c (List.mem_cons_self c p)).2
    rcases List.mem_cons.mp hd with rfl | hd
    · exact hcmem
    · exact ih c hcmem hcp (fun e he => hall e (List.mem_cons_of_mem c he)) d hd

/-- Effect of processing one neighbour offset: the accumulator invariant
is preserved, the accumulator only grows, and afterwards the neighbour
cell is accounted for: either closed, or out of bounds, or blocked, or
present among the queued coordinates. -/
theorem pushNeighbor_spec (grid : Grid) (target start : Coordinates) (cur : Node)
    (closed : List Coordinates) (acc : List Node) (off : Int × Int)
    (hoff : off ∈ offsets) (hcur : NodeOK grid start cur)
    (hinv : AccInv grid start closed acc) :
    AccInv grid start closed (pushNeighbor grid target cur closed acc off) ∧
    (∀ n ∈ acc, n ∈ pushNeighbor grid target cur closed acc off) ∧
    (Coordinates.mk (cur.x + off.1) (cur.y + off.2) ∈ closed ∨
      ¬ inBoundsP (Coordinates.mk (cur.x + off.1) (cur.y + off.2)) ∨
      ¬ traversable grid (Coordinates.mk (cur.x + off.1) (cur.y + off.2)) ∨
      Coordinates.mk (cur.x + off.1) (cur.y + off.2) ∈
        (pushNeighbor grid target cur closed acc off).map coordOf) := by
  by_cases h1 : inBoundsB (cur.x + off.1) (cur.y + off.2) = true
  case neg =>
    have hres : pushNeighbor grid target cur closed acc off = acc := by
      simp only [pushNeighbor, if_pos h1]
    rw [hres]
    exact ⟨hinv, fun n hn => hn, Or.inr (Or.inl h1)⟩
  case pos =>
    by_cases h2 : Coordinates.mk (cur.x + off.1) (cur.y + off.2) ∈ closed
    case pos =>
      have hres : pushNeighbor grid target cur closed acc off = acc := by
        simp only [pushNeighbor, if_neg (not_not_intro h1), if_pos h2]
      rw [hres]
      exact ⟨hinv, fun n hn => hn, Or.inl h2⟩
    case neg =>
      by_cases h3 : (grid (Coordinates.mk (cur.x + off.1) (cur.y + off.2))).type = CellType.WALL ∧
          (grid (Coordinates.mk (cur.x + off.1) (cur.y + off.2))).revealed = true
      case pos =>
        have hres : pushNeighbor grid target cur closed acc off = acc := by
          simp only [pushNeighbor, if_neg (not_not_intro h1), if_neg h2, if_pos h3]
        rw [hres]
        exact ⟨hinv, fun n hn => hn, Or.inr (Or.inr (Or.inl (not_not_intro h3)))⟩
      case neg =>
        cases hfind : acc.find? (fun n => n.x == cur.x + off.1 && n.y == cur.y + off.2) with
        | some ex =>
          have hres : pushNeighbor grid target cur closed acc off = acc := by
            simp only [pushNeighbor, if_neg (not_not_intro h1), if_neg h2, if_neg h3, hfind]
            exact ite_self acc
          rw [hres]
          refine ⟨hinv, fun n hn => hn, Or.inr (Or.inr (Or.inr ?_))⟩
          have hp := List.find?_some hfind
          have hmem := List.mem_of_find?_eq_some hfind
          rw [Bool.and_eq_true, beq_iff_eq, beq_iff_eq] at hp
          refine List.mem_map.mpr ⟨ex, hmem, ?_⟩
          show Coordinates.mk ex.x ex.y = _
          rw [hp.1, hp.2]
        | none =>
          have hwnotacc : Coordinates.mk (cur.x + off.1) (cur.y + off.2) ∉ acc.map coordOf := by
            intro hmem
            rcases List.mem_map.mp hmem with ⟨n, hn, hcoord⟩
            have := List.find?_eq_none.mp hfind n hn
            apply this
            rw [Bool.and_eq_true, beq_iff_eq, beq_iff_eq]
            exact ⟨congrArg Coordinates.x hcoord, congrArg Coordinates.y hcoord⟩
          have hres : pushNeighbor grid target cur closed acc off =
              acc ++ [⟨cur.x + off.1, cur.y + off.2,
                cur.g + MOVEMENT_COST (grid (Coordinates.mk (cur.x + off.1) (cur.y + off.2))).type,
                (cur.x + off.1 - target.x).natAbs + (cur.y + off.2 - target.y).natAbs,
                cur.g + MOVEMENT_COST (grid (Coordinates.mk (cur.x + off.1) (cur.y + off.2))).type +
                  ((cur.x + off.1 - target.x).natAbs + (cur.y + off.2 - target.y).natAbs),
                cur.path ++ [Coordinates.mk (cur.x + off.1) (cur.y + off.2)]⟩] := by
            simp only [pushNeighbor, if_neg (not_not_intro h1), if_neg h2, if_neg h3, hfind]
          rw [hres]
          obtain ⟨t, hpath, hchain, hcells, hlast, hstart⟩ := hcur
          have hwne_start : Coordinates.mk (cur.x + off.1) (cur.y + off.2) ≠ start := by
            rcases hinv.startMem with hs | hs
            · intro he; rw [he] at h2; exact h2 hs
            · intro he; rw [he] at hwnotacc; exact hwnotacc hs
          have hadj : adjacent (coordOf cur) (Coordinates.mk (cur.x + off.1) (cur.y + off.2)) :=
            ⟨off, hoff, rfl⟩
          have hnodeok : NodeOK grid start
              ⟨cur.x + off.1, cur.y + off.2,
                cur.g + MOVEMENT_COST (grid (Coordinates.mk (cur.x + off.1) (cur.y + off.2))).type,
                (cur.x + off.1 - target.x).natAbs + (cur.y + off.2 - target.y).natAbs,
                cur.g + MOVEMENT_COST (grid (Coordinates.mk (cur.x + off.1) (cur.y + off.2))).type +
                  ((cur.x + off.1 - target.x).natAbs + (cur.y + off.2 - target.y).natAbs),
                cur.path ++ [Coordinates.mk (cur.x + off.1) (cur.y + off.2)]⟩ := by
            refine ⟨t ++ [Coordinates.mk (cur.x + off.1) (cur.y + off.2)], ?_, ?_, ?_, ?_, ?_⟩
            · show cur.path ++ _ = _
              rw [hpath]
              rfl
            · exact chain_snoc t start (coordOf cur) _ hchain hlast hadj
            · intro c hc
              rcases List.mem_append.mp hc with hc | hc
              · exact hcells c hc
              · rcases List.mem_singleton.mp hc with rfl
                exact ⟨h1, h3⟩
            · show (start :: (t ++ [_])).getLast? = _
              rw [← List.cons_append, List.getLast?_concat]
              rfl
            · intro hmem
              rcases List.mem_append.mp hmem with hmem | hmem
              · exact hstart hmem
              · exact hwne_start (List.mem_singleton.mp hmem).symm
          refine ⟨⟨?_, ?_, ?_, ?_, ?_⟩, ?_, ?_⟩
          · rw [List.map_append]
            rw [List.nodup_append]
            refine ⟨hinv.nodup, List.nodup_singleton _, ?_⟩
            intro a ha hb
            rcases List.mem_singleton.mp hb with rfl
            exact hwnotacc ha
          · intro n hn
            rcases List.mem_append.mp hn with hn | hn
            · exact hinv.notClosed n hn
            · rcases List.mem_singleton.mp hn with rfl
              exact h2
          · intro n hn
            rcases List.mem_append.mp hn with hn | hn
            · exact hinv.allowed n hn
            · rcases List.mem_singleton.mp hn with rfl
              exact Or.inl h1
          · intro n hn
            rcases List.mem_append.mp hn with hn | hn
            · exact hinv.ok n hn
            · rcases List.mem_singleton.mp hn with rfl
              exact hnodeok
          · rcases hinv.startMem with hs | hs
            · exact Or.inl hs
            · refine Or.inr ?_
              rw [List.map_append]
              exact List.mem_append_left _ hs
          · exact fun n hn => List.mem_append_left _ hn
          · refine Or.inr (Or.inr (Or.inr ?_))
            rw [List.map_append]
            refine List.mem_append_right _ ?_
            exact List.mem_singleton.mpr rfl

/-- Folding the neighbour processing over a list of offsets preserves the
accumulator invariant, only grows the accumulator, and accounts for every
processed neighbour. -/
theorem foldl_pushNeighbor_spec (grid : Grid) (target start : Coordinates) (cur : Node)
    (closed : List Coordinates) (hcur : NodeOK grid start cur) :
    ∀ (offs : List (Int × Int)), (∀ o ∈ offs, o ∈ offsets) →
      ∀ acc, AccInv grid start closed acc →
      AccInv grid start closed (offs.foldl (pushNeighbor grid target cur closed) acc) ∧
      (∀ n ∈ acc, n ∈ offs.foldl (pushNeighbor grid target cur closed) acc) ∧
      (∀ off ∈ offs,
        Coordinates.mk (cur.x + off.1) (cur.y + off.2) ∈ closed ∨
        ¬ inBoundsP (Coordinates.mk (cur.x + off.1) (cur.y + off.2)) ∨
        ¬ traversable grid (Coordinates.mk (cur.x + off.1) (cur.y + off.2)) ∨
        Coordinates.mk (cur.x + off.1) (cur.y + off.2) ∈
          (offs.foldl (pushNeighbor grid target cur closed) acc).map coordOf) := by
  intro offs
  induction offs with
  | nil =>
    intro _ acc hinv
    exact ⟨hinv, fun n hn => hn, fun off hoff => absurd hoff (List.not_mem_nil off)⟩
  | cons o offs ih =>
    intro hsub acc hinv
    have hspec := pushNeighbor_spec grid target start cur closed acc o
      (hsub o (List.mem_cons_self o offs)) hcur hinv
    have hih := ih (fun o' ho' => hsub o' (List.mem_cons_of_mem o ho'))
      (pushNeighbor grid target cur closed acc o) hspec.1
    have hsubmono : ∀ n ∈ acc,
        n ∈ (o :: offs).foldl (pushNeighbor grid target cur closed) acc := by
      intro n hn
      exact hih.2.1 n (hspec.2.1 n hn)
    refine ⟨hih.1, hsubmono, ?_⟩
    intro off hoff
    rcases List.mem_cons.mp hoff with rfl | hoff
    · rcases hspec.2.2 with h | h | h | h
      · exact Or.inl h
      · exact Or.inr (Or.inl h)
      · exact Or.inr (Or.inr (Or.inl h))
      · refine Or.inr (Or.inr (Or.inr ?_))
        rcases List.mem_map.mp h with ⟨n, hn, hcoord⟩
        exact List.mem_map.mpr ⟨n, hih.2.1 n hn, hcoord⟩
    · exact hih.2.2 off hoff

/-- One non-goal iteration of the search loop preserves the invariant and
closes exactly one new coordinate. -/
theorem searchInv_step (grid : Grid) (start target : Coordinates)
    (openL : List Node) (closed : List Coordinates)
    (hinv : SearchInv grid start target openL closed)
    (cur : Node) (rest : List Node)
    (hsort : List.insertionSort (fun a b : Node => a.f ≤ b.f) openL = cur :: rest)
    (hnotgoal : ¬(cur.x = target.x ∧ cur.y = target.y)) :
    coordOf cur ∉ closed ∧
    SearchInv grid start target
      (offsets.foldl (pushNeighbor grid target cur (coordOf cur :: closed)) rest)
      (coordOf cur :: closed) := by
  have hperm : List.Perm (List.insertionSort (fun a b : Node => a.f ≤ b.f) openL) openL :=
    List.perm_insertionSort _ openL
  rw [hsort] at hperm
  have hcurmem : cur ∈ openL := hperm.mem_iff.mp (List.mem_cons_self cur rest)
  have hrestmem : ∀ n ∈ rest, n ∈ openL := fun n hn =>
    hperm.mem_iff.mp (List.mem_cons_of_mem cur hn)
  have hmapperm : List.Perm ((cur :: rest).map coordOf) (openL.map coordOf) :=
    hperm.map coordOf
  have hmapnodup : ((cur :: rest).map coordOf).Nodup :=
    (hperm.map coordOf).nodup_iff.mpr hinv.openNodup
  rw [List.map_cons] at hmapnodup
  have hcurnotrest : coordOf cur ∉ rest.map coordOf := (List.nodup_cons.mp hmapnodup).1
  have hrestnodup : (rest.map coordOf).Nodup := (List.nodup_cons.mp hmapnodup).2
  have hcurnotclosed : coordOf cur ∉ closed := hinv.openNotClosed cur hcurmem
  have hcurok : NodeOK grid start cur := hinv.nodesOK cur hcurmem
  have hcurne_target : coordOf cur ≠ target := by
    intro he
    apply hnotgoal
    constructor
    · exact congrArg Coordinates.x he
    · exact congrArg Coordinates.y he
  have haccinv : AccInv grid start (coordOf cur :: closed) rest := by
    refine ⟨hrestnodup, ?_, ?_, ?_, ?_⟩
    · intro n hn hmem
      rcases List.mem_cons.mp hmem with he | hmem'
      · exact hcurnotrest (he ▸ List.mem_map.mpr ⟨n, hn, rfl⟩)
      · exact hinv.openNotClosed n (hrestmem n hn) hmem'
    · intro n hn
      exact hinv.openAllowed n (hrestmem n hn)
    · intro n hn
      exact hinv.nodesOK n (hrestmem n hn)
    · rcases hinv.startIn with hs | hs
      · exact Or.inl (List.mem_cons_of_mem _ hs)
      · have : start ∈ (cur :: rest).map coordOf := hmapperm.mem_iff.mpr hs
        rw [List.map_cons] at this
        rcases List.mem_cons.mp this with he | hmem'
        · exact Or.inl (List.mem_cons.mpr (Or.inl he))
        · exact Or.inr hmem'
  have hfold := foldl_pushNeighbor_spec grid target start cur (coordOf cur :: closed) hcurok
    offsets (fun o ho => ho) rest haccinv
  refine ⟨hcurnotclosed, ?_⟩
  refine ⟨hfold.1.nodup, hfold.1.notClosed, hfold.1.allowed, ?_, ?_, ?_, ?_, ?_, hfold.1.ok⟩
  · exact List.nodup_cons.mpr ⟨hcurnotclosed, hinv.closedNodup⟩
  · intro c hc
    rcases List.mem_cons.mp hc with rfl | hc
    · exact hinv.openAllowed cur hcurmem
    · exact hinv.closedAllowed c hc
  · intro hc
    rcases List.mem_cons.mp hc with he | hc
    · exact hcurne_target he.symm
    · exact hinv.closedNotTarget hc
  · intro z hz w hadj hb ht
    rcases List.mem_cons.mp hz with rfl | hz
    · rcases hadj with ⟨off, hoff, rfl⟩
      rcases hfold.2.2 off hoff with h | h | h | h
      · exact Or.inl h
      · exact absurd hb h
      · exact absurd ht h
      · exact Or.inr h
    · rcases hinv.frontierClosed z hz w hadj hb ht with h | h
      · exact Or.inl (List.mem_cons_of_mem _ h)
      · have : w ∈ (cur :: rest).map coordOf := hmapperm.mem_iff.mpr h
        rw [List.map_cons] at this
        rcases List.mem_cons.mp this with he | hmem'
        · exact Or.inl (List.mem_cons.mpr (Or.inl he))
        · refine Or.inr ?_
          rcases List.mem_map.mp hmem' with ⟨n, hn, hcoord⟩
          exact List.mem_map.mpr ⟨n, hfold.2.1 n hn, hcoord⟩
  · rcases haccinv.startMem with hs | hs
    · exact Or.inl hs
    · refine Or.inr ?_
      rcases List.mem_map.mp hs with ⟨n, hn, hcoord⟩
      exact List.mem_map.mpr ⟨n, hfold.2.1 n hn, hcoord⟩

/-- Soundness of the search loop: a non-empty result is a valid path from
the start to the target that never revisits the start. -/
theorem searchLoop_sound (grid : Grid) (start target : Coordinates) :
    ∀ (fuel : Nat) (openL : List Node) (closed : List Coordinates),
      SearchInv grid start target openL closed →
      searchLoop grid target fuel openL closed ≠ [] →
      ValidPath grid start (searchLoop grid target fuel openL closed) ∧
      (searchLoop grid target fuel openL closed).getLast? = some target ∧
      start ∉ searchLoop grid target fuel openL closed := by
  intro fuel
  induction fuel with
  | zero =>
    intro openL closed _ hne
    exact absurd rfl hne
  | succ n ih =>
    intro openL closed hinv hne
    rcases hsort : List.insertionSort (fun a b : Node => a.f ≤ b.f) openL with _ | ⟨cur, rest⟩
    · exfalso
      apply hne
      simp only [searchLoop, hsort]
    · by_cases hgoal : cur.x = target.x ∧ cur.y = target.y
      · have hres : searchLoop grid target (n + 1) openL closed = cur.path.drop 1 := by
          simp only [searchLoop, hsort, if_pos hgoal]
        have hperm := List.perm_insertionSort (fun a b : Node => a.f ≤ b.f) openL
        rw [hsort] at hperm
        have hcurmem : cur ∈ openL := hperm.mem_iff.mp (List.mem_cons_self cur rest)
        obtain ⟨t, hpath, hchain, hcells, hlast, hstart⟩ := hinv.nodesOK cur hcurmem
        have htar : coordOf cur = target := by
          show Coordinates.mk cur.x cur.y = target
          rw [hgoal.1, hgoal.2]
        have hdrop : cur.path.drop 1 = t := by rw [hpath]; rfl
        rw [hres, hdrop] at hne ⊢
        have htne : t ≠ [] := hne
        refine ⟨⟨hchain, hcells⟩, ?_, hstart⟩
        rw [← getLast?_cons_of_ne_nil start t htne, hlast, htar]
      · have hstep := searchInv_step grid start target openL closed hinv cur rest hsort hgoal
        have hres : searchLoop grid target (n + 1) openL closed =
            searchLoop grid target n
              (offsets.foldl (pushNeighbor grid target cur (coordOf cur :: closed)) rest)
              (coordOf cur :: closed) := by
          simp only [searchLoop, hsort, if_neg hgoal, if_neg hstep.1]
        rw [hres] at hne ⊢
        exact ih _ _ hstep.2 hne

/-- Completeness of the search loop: with enough fuel, an invariant-sound
state and a reachable target distinct from the start, the loop does not
return the empty path. -/
theorem searchLoop_complete (grid : Grid) (start target : Coordinates) (hne : start ≠ target) :
    ∀ (fuel : Nat) (openL : List Node) (closed : List Coordinates),
      SearchInv grid start target openL closed →
      Reachable grid start target →
      226 < closed.length + fuel →
      searchLoop grid target fuel openL closed ≠ [] := by
  intro fuel
  induction fuel with
  | zero =>
    intro openL closed hinv _ hbound
    exfalso
    have := closed_length_le start closed hinv.closedNodup hinv.closedAllowed
    omega
  | succ n ih =>
    intro openL closed hinv hreach hbound
    rcases hsort : List.insertionSort (fun a b : Node => a.f ≤ b.f) openL with _ | ⟨cur, rest⟩
    · exfalso
      have hperm := List.perm_insertionSort (fun a b : Node => a.f ≤ b.f) openL
      rw [hsort] at hperm
      have hopenempty : openL = [] := (hperm.nil_eq).symm
      have hstartclosed : start ∈ closed := by
        rcases hinv.startIn with h | h
        · exact h
        · rw [hopenempty] at h
          simp at h
      have hfc : ∀ z ∈ closed, ∀ w, adjacent z w → inBoundsP w → traversable grid w →
          w ∈ closed := by
        intro z hz w hadj hb ht
        rcases hinv.frontierClosed z hz w hadj hb ht with h | h
        · exact h
        · rw [hopenempty] at h
          simp at h
      obtain ⟨p, ⟨hchain, hcells⟩, hpne, hplast⟩ := hreach
      have hallclosed := path_in_closed grid closed hfc p start hstartclosed hchain hcells
      have htargetmem : target ∈ p := List.mem_of_mem_getLast? hplast
      exact hinv.closedNotTarget (hallclosed target htargetmem)
    · by_cases hgoal : cur.x = target.x ∧ cur.y = target.y
      · have hres : searchLoop grid target (n + 1) openL closed = cur.path.drop 1 := by
          simp only [searchLoop, hsort, if_pos hgoal]
        rw [hres]
        have hperm := List.perm_insertionSort (fun a b : Node => a.f ≤ b.f) openL
        rw [hsort] at hperm
        have hcurmem : cur ∈ openL := hperm.mem_iff.mp (List.mem_cons_self cur rest)
        obtain ⟨t, hpath, _, _, hlast, _⟩ := hinv.nodesOK cur hcurmem
        have htar : coordOf cur = target := by
          show Coordinates.mk cur.x cur.y = target
          rw [hgoal.1, hgoal.2]
        have hdrop : cur.path.drop 1 = t := by rw [hpath]; rfl
        rw [hdrop]
        intro ht
        subst ht
        rw [List.getLast?_singleton, htar, Option.some_inj] at hlast
        exact hne hlast
      · have hstep := searchInv_step grid start target openL closed hinv cur rest hsort hgoal
        have hres : searchLoop grid target (n + 1) openL closed =
            searchLoop grid target n
              (offsets.foldl (pushNeighbor grid target cur (coordOf cur :: closed)) rest)
              (coordOf cur :: closed) := by
          simp only [searchLoop, hsort, if_neg hgoal, if_neg hstep.1]
        rw [hres]
        refine ih _ _ hstep.2 hreach ?_
        simp only [List.length_cons]
        omega

/-- C1 amended: for start distinct from target, planPath returns the empty
sequence exactly when the target is unreachable under the traversability
rule (a cell blocks only if it is a revealed Wall); a non-empty result is
a valid path: 4-adjacent in-bounds steps through non-blocking cells,
excluding the start and ending at the target.  (Minimality of the total
difficulty cost does not hold; see the counterexample.) -/
theorem planPath_valid_complete (grid : Grid) (start target : Coordinates)
    (hne : start ≠ target) :
    (planPath start target grid = [] ↔ ¬ Reachable grid start target) ∧
    (planPath start target grid ≠ [] →
      ValidPath grid start (planPath start target grid) ∧
      (planPath start target grid).getLast? = some target ∧
      start ∉ planPath start target grid) := by
  have hcoord : coordOf ⟨start.x, start.y, 0, 0, 0, [start]⟩ = start := rfl
  have hinit : SearchInv grid start target [⟨start.x, start.y, 0, 0, 0, [start]⟩] [] := by
    refine ⟨?_, ?_, ?_, List.nodup_nil, ?_, ?_, ?_, ?_, ?_⟩
    · simp
    · intro n _ hmem
      cases hmem
    · intro n hn
      rcases List.mem_singleton.mp hn with rfl
      exact Or.inr hcoord
    · intro c hc
      cases hc
    · intro h
      cases h
    · intro z hz
      cases hz
    · refine Or.inr ?_
      simp only [List.map_cons, List.map_nil, hcoord]
      exact List.mem_singleton.mpr rfl
    · intro n hn
      rcases List.mem_singleton.mp hn with rfl
      refine ⟨[], rfl, List.Chain.nil, ?_, ?_, ?_⟩
      · intro c hc
        cases hc
      · rw [List.getLast?_singleton, hcoord]
      · intro h
        cases h
  have hplan : planPath start target grid =
      searchLoop grid target 1000 [⟨start.x, start.y, 0, 0, 0, [start]⟩] [] := rfl
  constructor
  · constructor
    · intro hempty hreach
      exact searchLoop_complete grid start target hne 1000 _ [] hinit hreach
        (by norm_num) (hplan ▸ hempty)
    · intro hnreach
      by_contra hne'
      have hs := searchLoop_sound grid start target 1000 _ [] hinit (hplan ▸ hne')
      rw [← hplan] at hs
      exact hnreach ⟨planPath start target grid, hs.1, hne', hs.2.1⟩
  · intro hne'
    have hs := searchLoop_sound grid start target 1000 _ [] hinit (hplan ▸ hne')
    rw [← hplan] at hs
    exact hs

/-- Witness for C1 amended at a concrete input: the fully revealed empty
grid, start (0,0), target (1,0). -/
theorem planPath_valid_complete_witness :
    (planPath ⟨0, 0⟩ ⟨1, 0⟩ demoGrid = [] ↔ ¬ Reachable demoGrid ⟨0, 0⟩ ⟨1, 0⟩) ∧
    (planPath ⟨0, 0⟩ ⟨1, 0⟩ demoGrid ≠ [] →
      ValidPath demoGrid ⟨0, 0⟩ (planPath ⟨0, 0⟩ ⟨1, 0⟩ demoGrid) ∧
      (planPath ⟨0, 0⟩ ⟨1, 0⟩ demoGrid).getLast? = some ⟨1, 0⟩ ∧
      (⟨0, 0⟩ : Coordinates) ∉ planPath ⟨0, 0⟩ ⟨1, 0⟩ demoGrid) :=
  planPath_valid_complete demoGrid ⟨0, 0⟩ ⟨1, 0⟩ (by decide)

end RescueBot
